import Mathlib

/-!
Shallow embedding of the MCIK ascii-torus renderer, metrics and auto-tuning
controller (files `ascii_torus.cpp`, `metrics.hpp`, `mcik_controller.hpp`).

C++ `double` values are modelled as exact rationals (`ℚ`); `int` values as
`ℤ` or `ℕ` where the code keeps them nonnegative.  The two effects the code
has that cannot be embedded exactly — wall-clock frame timing and the
transcendental functions (`cos`, `sin`, `pow`, `sqrt`) — are made explicit
parameters: the measured frame time is an input, `sqrt` is a function
parameter of the quality estimator, and the rasterizer's per-point geometry
pipeline (which ends in a projected pixel, a depth proxy `ooz` and a shade
value) is abstracted as the stream of per-point candidates the `theta`/`phi`
loops produce, while everything downstream of those values — ramp indexing,
bounds check, depth test, buffer writes — is embedded verbatim.
-/

/-! ## Density and quality metrics (`metrics.hpp`) -/

/-- Fixed 10-glyph reference ramp of `char_density` (`metrics.hpp`, line 10). -/
def densityRamp : List Char := [' ', '.', ':', '-', '=', '+', '*', '#', '%', '@']

/-- Embeds `torus_metrics::char_density` (`metrics.hpp`, lines 8-16): rank in
the 10-glyph reference ramp divided by 9, falling back to the normalized
ASCII code `clamp((uc-32)/94, 0, 1)`. -/
def char_density (c : Char) : ℚ :=
  match densityRamp.findIdx? (fun g => g = c) with
  | some i => (i : ℚ) / 9
  | none => min (max (((c.toNat : ℚ) - 32) / 94) 0) 1

/-- Reading `buf[off]` through `char_density`, with an `Option` result:
`none` exactly when the read is out of bounds. -/
def density_at? (buf : List Char) (off : ℕ) : Option ℚ :=
  (buf.get? off).map char_density

/-- Total version of `density_at?`: an out-of-bounds read defaults to
density 0 (the C++ code never performs such a read in-domain; see
`quality_reads_in_bounds`). -/
def density_at (buf : List Char) (off : ℕ) : ℚ :=
  match buf.get? off with
  | some c => char_density c
  | none => 0

/-- Offsets `y * w + x` for `y` in `1..h-2`, `x` in `1..w-2`: the interior
cells visited by the double loop of `estimate_ascii_quality`
(`metrics.hpp`, lines 22-23), in loop order. -/
def interior_offsets (w h : ℕ) : List ℕ :=
  (List.range' 1 (h - 2)).flatMap (fun y => (List.range' 1 (w - 2)).map (fun x => y * w + x))

/-- Loop body of `estimate_ascii_quality` (`metrics.hpp`, lines 24-32): the
central-difference gradient magnitude at offset `off`.  `sqrt` stands for
`std::sqrt`. -/
def grad_at (sqrt : ℚ → ℚ) (buf : List Char) (w : ℕ) (off : ℕ) : ℚ :=
  let cx1 := density_at buf (off - 1)
  let cx2 := density_at buf (off + 1)
  let cy1 := density_at buf (off - w)
  let cy2 := density_at buf (off + w)
  let gx := (1/2) * (cx2 - cx1)
  let gy := (1/2) * (cy2 - cy1)
  sqrt (gx * gx + gy * gy)

/-- Option-valued variant of `grad_at`: every buffer read goes through
`density_at?`, so the result is `none` as soon as any of the four reads
`off-1`, `off+1`, `off-w`, `off+w` is out of bounds. -/
def grad_at? (sqrt : ℚ → ℚ) (buf : List Char) (w : ℕ) (off : ℕ) : Option ℚ :=
  match density_at? buf (off - 1), density_at? buf (off + 1),
        density_at? buf (off - w), density_at? buf (off + w) with
  | some cx1, some cx2, some cy1, some cy2 =>
      some (sqrt ((1/2) * (cx2 - cx1) * ((1/2) * (cx2 - cx1))
        + (1/2) * (cy2 - cy1) * ((1/2) * (cy2 - cy1))))
  | _, _, _, _ => none

/-- Embeds `torus_metrics::estimate_ascii_quality` (`metrics.hpp`, lines
18-41): 0 for `w < 3` or `h < 3`, otherwise the mean interior gradient
magnitude clamped to `[0, 1]`. -/
def estimate_ascii_quality (sqrt : ℚ → ℚ) (buf : List Char) (w h : ℕ) : ℚ :=
  if w < 3 ∨ h < 3 then 0
  else
    let offs := interior_offsets w h
    let acc := (offs.map (grad_at sqrt buf w)).sum
    let cnt := offs.length
    if cnt = 0 then 0
    else min (max (acc / (cnt : ℚ)) 0) 1

/-- Embeds `torus_metrics::estimate_ascii_similarity` (`metrics.hpp`, lines
43-62): 0 on a length mismatch, otherwise `1 - MSE` of densities clamped to
`[0, 1]`. -/
def estimate_ascii_similarity (buf ref : List Char) (w h : ℕ) : ℚ :=
  if buf.length ≠ ref.length ∨ buf.length ≠ w * h then 0
  else
    let cnt := w * h
    let acc := ((List.range cnt).map (fun i =>
      let d := density_at buf i
      let r := density_at ref i
      (d - r) * (d - r))).sum
    if cnt = 0 then 0
    else
      let sim := 1 - acc / (cnt : ℚ)
      let sim := if sim < 0 then 0 else sim
      if sim > 1 then 1 else sim

/-! ## Ramp construction (`ascii_torus.cpp`) -/

/-- Embeds `DEFAULT_RAMP` (`ascii_torus.cpp`, line 66), exactly as it
appears in the source (the adjacent comment claims length 10; the string
has length 44). -/
def DEFAULT_RAMP : List Char := (" .:-=+*#%@adkfkajnondvakdfaoivqevlasdkjfacvu").toList

/-- Embeds `make_ramp` (`ascii_torus.cpp`, lines 122-139): return the master
ramp unchanged at its native size, else resample it to `ramp_size` glyphs by
nearest-neighbor interpolation. -/
def make_ramp (ramp_size : ℕ) : List Char :=
  if ramp_size = DEFAULT_RAMP.length then DEFAULT_RAMP
  else
    (List.range ramp_size).map (fun (i : ℕ) =>
      let t : ℚ := if ramp_size = 1 then 0 else (i : ℚ) / ((ramp_size : ℚ) - 1)
      let idx : ℚ := t * ((DEFAULT_RAMP.length : ℚ) - 1)
      let i0 : ℤ := ⌊idx⌋
      let i1 : ℤ := min ((DEFAULT_RAMP.length : ℤ) - 1) (i0 + 1)
      let u : ℚ := idx - (i0 : ℚ)
      if u < 1/2 then DEFAULT_RAMP.getD i0.toNat ' ' else DEFAULT_RAMP.getD i1.toNat ' ')

/-- A glyph sequence is ordered darkest-to-brightest when `char_density` is
nondecreasing along it. -/
def ramp_densities_nondecreasing (ramp : List Char) : Prop :=
  (ramp.map char_density).Chain' (· ≤ ·)

instance (ramp : List Char) : Decidable (ramp_densities_nondecreasing ramp) := by
  unfold ramp_densities_nondecreasing
  infer_instance

/-! ## Configuration clamping (`parse_args`, `ascii_torus.cpp` lines 114-117) -/

/-- Embeds the torus-radius correction of `parse_args` (`ascii_torus.cpp`,
lines 114-117): `R := max 0.1 R`, `r := max 0.05 r`, and if `r ≥ R` then
`r := max 0.05 (R * 0.4)`.  Returns the corrected `(R, r)`. -/
def parse_torus_radii (torus_R torus_r : ℚ) : ℚ × ℚ :=
  let R := max (1/10) torus_R
  let r := max (1/20) torus_r
  let r := if r ≥ R then max (1/20) (R * (2/5)) else r
  (R, r)

/-! ## Controller (`mcik_controller.hpp`) -/

/-- Embeds `mcik_ctrl::ParamVector` (`mcik_controller.hpp`, lines 8-14). -/
structure ParamVector where
  resolution_scale : ℚ
  samples_per_pixel : ℤ
  gamma : ℚ
  normal_smooth : ℚ
  ramp_size : ℤ
deriving DecidableEq

/-- Embeds `mcik_ctrl::StepSuggestion` (`mcik_controller.hpp`, lines 16-19). -/
structure StepSuggestion where
  next : ParamVector
  mode : String
deriving DecidableEq

/-- Embeds `mcik_ctrl::clamp_params` (`mcik_controller.hpp`, lines 21-29). -/
def clamp_params (p : ParamVector) : ParamVector :=
  { resolution_scale := min (max p.resolution_scale (1/4)) 1
    samples_per_pixel := min (max p.samples_per_pixel 1) 4
    gamma := min (max p.gamma (1/2)) 3
    normal_smooth := min (max p.normal_smooth 0) 1
    ramp_size := min (max p.ramp_size 8) 16 }

/-- Embeds `mcik_ctrl::ProbeDeltas` (`mcik_controller.hpp`, lines 31-37). -/
structure ProbeDeltas where
  d_scale : ℚ := 1/20
  d_spp : ℤ := 1
  d_gamma : ℚ := 1/10
  d_ns : ℚ := 1/10
  d_ramp : ℤ := 2

/-- Running best candidate of `suggest_step_K` (the local `Cand` struct of
`mcik_controller.hpp`, line 45). -/
structure Cand where
  p : ParamVector
  score : ℚ

/-- Embeds the `try_update` lambda of `suggest_step_K` (`mcik_controller.hpp`,
lines 47-51): clamp the probe, evaluate it, keep it only on strict
improvement. -/
def try_update (evaluate : ParamVector → ℚ) (best : Cand) (cand : ParamVector) : Cand :=
  let q := clamp_params cand
  let s := evaluate q
  if s > best.score then ⟨q, s⟩ else best

/-- The ten single-axis probes of `suggest_step_K` (`mcik_controller.hpp`,
lines 53-77), in program order: each axis nudged `+` then `-` by its delta. -/
def k_candidates (c : ParamVector) (d : ProbeDeltas) : List ParamVector :=
  [ { c with resolution_scale := c.resolution_scale + d.d_scale }
  , { c with resolution_scale := c.resolution_scale - d.d_scale }
  , { c with samples_per_pixel := c.samples_per_pixel + d.d_spp }
  , { c with samples_per_pixel := c.samples_per_pixel - d.d_spp }
  , { c with gamma := c.gamma + d.d_gamma }
  , { c with gamma := c.gamma - d.d_gamma }
  , { c with normal_smooth := c.normal_smooth + d.d_ns }
  , { c with normal_smooth := c.normal_smooth - d.d_ns }
  , { c with ramp_size := c.ramp_size + d.d_ramp }
  , { c with ramp_size := c.ramp_size - d.d_ramp } ]

/-- Embeds `mcik_ctrl::suggest_step_K` (`mcik_controller.hpp`, lines 39-80):
fold `try_update` over the ten probes, starting from the base candidate
`(current, evaluate current)`. -/
def suggest_step_K (current : ParamVector) (evaluate : ParamVector → ℚ)
    (d : ProbeDeltas) : StepSuggestion :=
  let base := evaluate current
  let best := (k_candidates current d).foldl (try_update evaluate) ⟨current, base⟩
  ⟨best.p, "K"⟩

/-- Embeds the `try_pair` lambda of `suggest_step_KH` (`mcik_controller.hpp`,
lines 91-107): probe both axes of the pair, compute the two-point synergy,
and accept the combined candidate only when synergy is positive and its
score strictly beats the running best. -/
def try_pair (evaluate : ParamVector → ℚ) (current : ParamVector)
    (acc : ℚ × StepSuggestion)
    (pr : (ParamVector → ParamVector) × (ParamVector → ParamVector)) :
    ℚ × StepSuggestion :=
  let pa := clamp_params (pr.1 current)
  let pb := clamp_params (pr.2 current)
  let pab := clamp_params (pr.2 pa)
  let s0 := evaluate current
  let sa := evaluate pa
  let sb := evaluate pb
  let sab := evaluate pab
  let synergy := (sab - s0) - ((sa - s0) + (sb - s0))
  if synergy > 0 ∧ sab > acc.1 then (sab, ⟨pab, "K+H"⟩) else acc

/-- The three fixed axis pairs of `suggest_step_KH` (`mcik_controller.hpp`,
lines 109-125), in program order. -/
def kh_pairs (d : ProbeDeltas) :
    List ((ParamVector → ParamVector) × (ParamVector → ParamVector)) :=
  [ ( fun p => { p with resolution_scale := p.resolution_scale + d.d_scale }
    , fun p => { p with samples_per_pixel := p.samples_per_pixel + d.d_spp } )
  , ( fun p => { p with gamma := p.gamma + d.d_gamma }
    , fun p => { p with normal_smooth := p.normal_smooth + d.d_ns } )
  , ( fun p => { p with resolution_scale := p.resolution_scale - d.d_scale }
    , fun p => { p with gamma := p.gamma + d.d_gamma } ) ]

/-- Embeds `mcik_ctrl::suggest_step_KH` (`mcik_controller.hpp`, lines
82-128): run `suggest_step_K` first, then fold `try_pair` over the three
fixed pairs, starting from the K-mode best and its score. -/
def suggest_step_KH (current : ParamVector) (evaluate : ParamVector → ℚ)
    (d : ProbeDeltas) : StepSuggestion :=
  let bestK := suggest_step_K current evaluate d
  let acc := (kh_pairs d).foldl (try_pair evaluate current) (evaluate bestK.next, bestK)
  acc.2

/-! ## Rasterizer write path (`render_torus_frame`, `ascii_torus.cpp`) -/

/-- One per-point candidate of the rasterizer's `theta`/`phi` loops: the
truncated screen coordinates `xp`, `yp` (`ascii_torus.cpp`, lines 205-206),
the depth proxy `ooz = 1/(z2 + K2)` (line 203) and the tone-mapped shade
`L^(1/gamma)` (line 224).  The trigonometric pipeline that produces these
four values is abstracted as the input stream; everything after them is
embedded verbatim. -/
structure PlotCand where
  xp : ℤ
  yp : ℤ
  ooz : ℚ
  shade : ℚ

/-- Ramp index of a shade value (`ascii_torus.cpp`, lines 225-226):
`floor(shade * (ramp_size - 1))` clamped to `[0, ramp_size - 1]`. -/
def shade_index (rampLen : ℕ) (shade : ℚ) : ℕ :=
  (min (max (⌊shade * ((rampLen : ℚ) - 1)⌋) 0) ((rampLen : ℤ) - 1)).toNat

/-- Flattened cell offset a candidate targets (`ascii_torus.cpp`, line 230). -/
def target_off (w : ℕ) (c : PlotCand) : ℕ := (c.yp * (w : ℤ) + c.xp).toNat

/-- Embeds the per-candidate write step of `render_torus_frame`
(`ascii_torus.cpp`, lines 228-235): if the pixel is in bounds and its depth
proxy strictly exceeds the stored depth, overwrite glyph and depth,
otherwise leave both buffers unchanged. -/
def plot (w h : ℕ) (ramp : List Char) (st : List Char × List ℚ) (c : PlotCand) :
    List Char × List ℚ :=
  if 0 ≤ c.xp ∧ c.xp < (w : ℤ) ∧ 0 ≤ c.yp ∧ c.yp < (h : ℤ) then
    let off := target_off w c
    if c.ooz > st.2.getD off 0 then
      (st.1.set off (ramp.getD (shade_index ramp.length c.shade) ' '), st.2.set off c.ooz)
    else st
  else st

/-- Embeds `render_torus_frame` (`ascii_torus.cpp`, lines 161-238): fill the
character buffer with spaces and the depth buffer with zeros (lines
169-170), then fold the write step over the candidate stream produced by
the `theta`/`phi` loops. -/
def render_torus_frame (out_buf : List Char) (zbuf : List ℚ) (w h : ℕ)
    (ramp : List Char) (cands : List PlotCand) : List Char × List ℚ :=
  cands.foldl (plot w h ramp) (List.replicate out_buf.length ' ', List.replicate zbuf.length (0 : ℚ))

/-! ## Scorer (`evaluate_score` and `measure_frame_time`, `ascii_torus.cpp`) -/

/-- Embeds the `fps` field of `measure_frame_time` (`ascii_torus.cpp`, lines
152-158): `1000 / ms` when `ms > 0`, else `0`. -/
def measure_fps (ms : ℚ) : ℚ := if ms > 0 then 1000 / ms else 0

/-- Embeds the scoring arithmetic of `evaluate_score` (`ascii_torus.cpp`,
lines 240-260).  The rendered frame and its measured wall-clock duration
are the two non-deterministic inputs of the C++ function; they enter here
as the parameters `buf` (with its dimensions `w`, `h`) and `frame_ms`.  The
rest is verbatim: `fps_norm = min(fps / max(1, target_fps), 1)` and the
weighted blend with the quality estimate. -/
def evaluate_score (sqrt : ℚ → ℚ) (frame_ms : ℚ) (buf : List Char) (w h : ℕ)
    (target_fps : ℤ) (w_fps w_quality : ℚ) : ℚ :=
  let fps := measure_fps frame_ms
  let q := estimate_ascii_quality sqrt buf w h
  let fps_norm := min (fps / ((max 1 target_fps : ℤ) : ℚ)) 1
  w_fps * fps_norm + w_quality * q

/-! ## Helper lemmas -/

/-- In-domain predicate for ParamVector used in the claims: clamping is a
no-op. -/
def in_domain (p : ParamVector) : Prop := clamp_params p = p

instance (p : ParamVector) : Decidable (in_domain p) := by
  unfold in_domain
  infer_instance

/-- Quality is always in the unit interval: every branch of
`estimate_ascii_quality` returns either the sentinel 0 or a value clamped
to `[0, 1]`. -/
theorem estimate_ascii_quality_mem_Icc (sqrt : ℚ → ℚ) (buf : List Char) (w h : ℕ) :
    estimate_ascii_quality sqrt buf w h ∈ Set.Icc (0 : ℚ) 1 := by
  unfold estimate_ascii_quality
  split
  · exact Set.mem_Icc.2 (by norm_num)
  · dsimp only
    split
    · exact Set.mem_Icc.2 (by norm_num)
    · refine Set.mem_Icc.2 ⟨le_min (le_max_right _ _) (by norm_num), min_le_right _ _⟩

/-- Frames-per-second derived from a measured duration is nonnegative. -/
theorem measure_fps_nonneg (ms : ℚ) : 0 ≤ measure_fps ms := by
  unfold measure_fps
  split
  · positivity
  · exact le_refl 0

/-- Evaluation lemma for `make_ramp` away from the native size: the rational
nearest-neighbor interpolation reduces to natural-number division and
remainder arithmetic, making concrete ramps computable. -/
theorem make_ramp_eval (n : ℕ) (h2 : 2 ≤ n) (hne : n ≠ DEFAULT_RAMP.length) :
    make_ramp n = (List.range n).map (fun i =>
      if 2 * (43 * i % (n - 1)) < n - 1 then DEFAULT_RAMP.getD (43 * i / (n - 1)) ' '
      else DEFAULT_RAMP.getD (min 43 (43 * i / (n - 1) + 1)) ' ') := by
  unfold make_ramp
  rw [if_neg hne]
  refine List.map_congr_left ?_
  intro i hi
  have hn1 : n ≠ 1 := by omega
  have h44 : DEFAULT_RAMP.length = 44 := by decide
  rw [if_neg hn1]
  dsimp only
  rw [h44]
  have hdq : ((n : ℚ) - 1) = ((n - 1 : ℕ) : ℚ) := by
    push_cast [Nat.cast_sub (by omega : 1 ≤ n)]
    ring
  have hdpos : (0 : ℚ) < ((n - 1 : ℕ) : ℚ) := by
    have h : 0 < n - 1 := by omega
    exact_mod_cast h
  have hdne : ((n - 1 : ℕ) : ℚ) ≠ 0 := ne_of_gt hdpos
  have hx : (i : ℚ) / ((n : ℚ) - 1) * (((44 : ℕ) : ℚ) - 1)
      = ((43 * i : ℕ) : ℚ) / ((n - 1 : ℕ) : ℚ) := by
    rw [hdq]
    push_cast
    ring
  rw [hx, Rat.floor_natCast_div_natCast, ← Int.natCast_div]
  have hmod : (n - 1) * (43 * i / (n - 1)) + 43 * i % (n - 1) = 43 * i :=
    Nat.div_add_mod (43 * i) (n - 1)
  have hmodq : ((n - 1 : ℕ) : ℚ) * ((43 * i / (n - 1) : ℕ) : ℚ) + ((43 * i % (n - 1) : ℕ) : ℚ)
      = ((43 * i : ℕ) : ℚ) := by
    exact_mod_cast congrArg (fun m : ℕ => (m : ℚ)) hmod
  have hu : ((43 * i : ℕ) : ℚ) / ((n - 1 : ℕ) : ℚ) - (((43 * i / (n - 1) : ℕ) : ℤ) : ℚ)
      = ((43 * i % (n - 1) : ℕ) : ℚ) / ((n - 1 : ℕ) : ℚ) := by
    rw [Int.cast_natCast, eq_div_iff hdne, sub_mul, div_mul_cancel₀ _ hdne]
    linarith [hmodq]
  rw [hu]
  have hcond : ((43 * i % (n - 1) : ℕ) : ℚ) / ((n - 1 : ℕ) : ℚ) < 1 / 2
      ↔ 2 * (43 * i % (n - 1)) < n - 1 := by
    rw [div_lt_div_iff hdpos (by norm_num : (0 : ℚ) < 2), one_mul]
    rw [show ((43 * i % (n - 1) : ℕ) : ℚ) * 2 = ((2 * (43 * i % (n - 1)) : ℕ) : ℚ) from by
      push_cast
      ring]
    exact Nat.cast_lt
  have hthen : ((43 * i / (n - 1) : ℕ) : ℤ).toNat = 43 * i / (n - 1) := Int.toNat_natCast _
  have helse : (min (((44 : ℕ) : ℤ) - 1) (((43 * i / (n - 1) : ℕ) : ℤ) + 1)).toNat
      = min 43 (43 * i / (n - 1) + 1) := by
    generalize 43 * i / (n - 1) = q
    omega
  rw [hthen, helse]
  exact if_congr hcond rfl rfl

/-! ## Claim theorems: metrics, ramp, configuration -/

/-- C4: `estimate_ascii_quality` returns exactly 0 whenever `w < 3` or
`h < 3`, and `estimate_ascii_similarity` returns exactly 0 whenever the two
buffer lengths differ or the buffer length is not `w * h`; both degenerate
cases yield the sentinel 0 instead of failing. -/
theorem metrics_sentinel_zero (sqrt : ℚ → ℚ) (buf ref : List Char) (w h : ℕ) :
    (w < 3 ∨ h < 3 → estimate_ascii_quality sqrt buf w h = 0)
    ∧ (buf.length ≠ ref.length ∨ buf.length ≠ w * h →
        estimate_ascii_similarity buf ref w h = 0) := by
  constructor
  · intro hwh
    unfold estimate_ascii_quality
    rw [if_pos hwh]
  · intro hl
    unfold estimate_ascii_similarity
    rw [if_pos hl]

/-- Witness for `metrics_sentinel_zero` at a concrete degenerate input. -/
theorem metrics_sentinel_zero_witness :
    estimate_ascii_quality id [' '] 2 5 = 0 ∧ estimate_ascii_similarity [' '] [] 2 5 = 0 :=
  ⟨(metrics_sentinel_zero id [' '] [] 2 5).1 (by decide),
   (metrics_sentinel_zero id [' '] [] 2 5).2 (by decide)⟩

/-- C5 counterexample: self-similarity is not 1 for every buffer — a
one-glyph buffer compared against itself with mismatching dimensions
`w = h = 2` hits the length-check sentinel and returns 0, not 1. -/
theorem self_similarity_counterexample :
    estimate_ascii_similarity [' '] [' '] 2 2 = 0 ∧ estimate_ascii_similarity [' '] [' '] 2 2 ≠ 1 := by
  decide

/-- C5 (amended): when the buffer's length equals `w * h` and the frame is
nonempty, comparing a buffer against itself gives similarity exactly 1. -/
theorem estimate_ascii_similarity_self (buf : List Char) (w h : ℕ)
    (hl : buf.length = w * h) (hpos : 0 < w * h) :
    estimate_ascii_similarity buf buf w h = 1 := by
  unfold estimate_ascii_similarity
  rw [if_neg (by simp [hl])]
  dsimp only
  rw [if_neg hpos.ne']
  have hz : ((List.range (w * h)).map (fun i =>
      (density_at buf i - density_at buf i) * (density_at buf i - density_at buf i))).sum
      = 0 := by
    apply List.sum_eq_zero
    intro x hx
    simp only [List.mem_map] at hx
    obtain ⟨i, _, rfl⟩ := hx
    simp
  rw [hz]
  norm_num

/-- Witness for `estimate_ascii_similarity_self` at a concrete 2×1 buffer. -/
theorem estimate_ascii_similarity_self_witness :
    estimate_ascii_similarity [' ', '.'] [' ', '.'] 2 1 = 1 :=
  estimate_ascii_similarity_self [' ', '.'] 2 1 (by decide) (by decide)

/-- C3 (code evaluated at the failing input): `make_ramp 8` has the claimed
length 8 but is NOT ordered darkest-to-brightest — `DEFAULT_RAMP` (declared
as length 10 in the source comment but actually 44 characters with unordered
letters appended) makes the resampled ramp's `char_density` sequence
decrease. -/
theorem make_ramp_eight_unordered :
    (make_ramp 8).length = 8 ∧ make_ramp 8 = (" *kofeku").toList
      ∧ ¬ ramp_densities_nondecreasing (make_ramp 8) := by
  have h8 : make_ramp 8 = (" *kofeku").toList := by
    rw [make_ramp_eval 8 (by norm_num) (by decide)]
    decide
  refine ⟨by rw [h8]; decide, h8, ?_⟩
  rw [h8]
  intro hchain
  have ho : char_density 'o' = 79 / 94 := by
    have hfind : densityRamp.findIdx? (fun g => g = 'o') = none := by decide
    simp only [char_density, hfind]
    norm_num [min_def, max_def, show 'o'.toNat = 111 from by decide]
  have hf : char_density 'f' = 70 / 94 := by
    have hfind : densityRamp.findIdx? (fun g => g = 'f') = none := by decide
    simp only [char_density, hfind]
    norm_num [min_def, max_def, show 'f'.toNat = 102 from by decide]
  have hof : char_density 'f' < char_density 'o' := by
    rw [ho, hf]
    norm_num
  have hlist : (" *kofeku").toList = [' ', '*', 'k', 'o', 'f', 'e', 'k', 'u'] := by decide
  rw [hlist] at hchain
  unfold ramp_densities_nondecreasing at hchain
  simp only [List.map, List.chain'_cons, List.chain'_singleton] at hchain
  exact absurd hchain.2.2.2.1 (not_le.2 hof)

/-- C6: ramp construction is a pure function of `ramp_size` (two calls with
the same size yield the same glyph sequence), and requesting the master
ramp's own native size (44) returns `DEFAULT_RAMP` unmodified. -/
theorem make_ramp_pure_and_native_identity :
    DEFAULT_RAMP.length = 44 ∧ make_ramp 44 = DEFAULT_RAMP
      ∧ ∀ n : ℕ, make_ramp n = make_ramp n := by
  exact ⟨by decide, by decide, fun n => rfl⟩

/-- C8: for every pair of input radii, the `parse_args` correction yields
`0 < r < R`: a minor radius at or above the major radius is corrected by
clamping, never signaled. -/
theorem parse_torus_radii_sound (torus_R torus_r : ℚ) :
    0 < (parse_torus_radii torus_R torus_r).2
      ∧ (parse_torus_radii torus_R torus_r).2 < (parse_torus_radii torus_R torus_r).1 := by
  unfold parse_torus_radii
  dsimp only
  have hR1 : (1/10 : ℚ) ≤ max (1/10) torus_R := le_max_left _ _
  by_cases hc : max (1/20 : ℚ) torus_r ≥ max (1/10) torus_R
  · rw [if_pos hc]
    refine ⟨lt_of_lt_of_le (by norm_num) (le_max_left _ _), ?_⟩
    refine max_lt (by linarith) (by linarith)
  · rw [if_neg hc]
    push_neg at hc
    exact ⟨lt_of_lt_of_le (by norm_num) (le_max_left _ _), hc⟩

/-! ## Claim theorems: scorer -/

/-- C7: with weights 0.5/0.5 and any `target_fps ≥ 1`, `evaluate_score`
returns a value in `[0, 1]` for every rendered buffer and measured frame
time: the FPS term `min(fps / target, 1)` lies in `[0, 1]` because the
measured fps is nonnegative, and the quality term is clamped to `[0, 1]`. -/
theorem evaluate_score_in_unit_interval (sqrt : ℚ → ℚ) (frame_ms : ℚ) (buf : List Char)
    (w h : ℕ) (target_fps : ℤ) (ht : 1 ≤ target_fps) :
    min (measure_fps frame_ms / ((max 1 target_fps : ℤ) : ℚ)) 1 ∈ Set.Icc (0 : ℚ) 1
    ∧ estimate_ascii_quality sqrt buf w h ∈ Set.Icc (0 : ℚ) 1
    ∧ evaluate_score sqrt frame_ms buf w h target_fps (1/2) (1/2) ∈ Set.Icc (0 : ℚ) 1 := by
  have hq := estimate_ascii_quality_mem_Icc sqrt buf w h
  have hfps := measure_fps_nonneg frame_ms
  have hden : (0 : ℚ) < ((max 1 target_fps : ℤ) : ℚ) := by
    have h1 : (1 : ℤ) ≤ max 1 target_fps := le_max_left _ _
    have h2 : (0 : ℤ) < max 1 target_fps := lt_of_lt_of_le zero_lt_one h1
    exact_mod_cast h2
  have hnorm : min (measure_fps frame_ms / ((max 1 target_fps : ℤ) : ℚ)) 1
      ∈ Set.Icc (0 : ℚ) 1 :=
    Set.mem_Icc.2 ⟨le_min (div_nonneg hfps hden.le) zero_le_one, min_le_right _ _⟩
  refine ⟨hnorm, hq, ?_⟩
  rw [Set.mem_Icc] at hnorm hq ⊢
  unfold evaluate_score
  dsimp only
  constructor
  · nlinarith [hnorm.1, hq.1]
  · nlinarith [hnorm.2, hq.2]

/-- Witness for `evaluate_score_in_unit_interval` at a concrete input. -/
theorem evaluate_score_in_unit_interval_witness :
    evaluate_score id 0 [] 0 0 30 (1/2) (1/2) ∈ Set.Icc (0 : ℚ) 1 :=
  (evaluate_score_in_unit_interval id 0 [] 0 0 30 (by norm_num)).2.2

/-! ## Claim theorems: controller -/

/-- Fold invariant of the K-mode probe loop: the running best's score is the
evaluation of its vector and it never decreases along the fold. -/
theorem foldl_try_update_spec (evaluate : ParamVector → ℚ) (l : List ParamVector) (b : Cand)
    (hb : b.score = evaluate b.p) :
    (l.foldl (try_update evaluate) b).score = evaluate (l.foldl (try_update evaluate) b).p
    ∧ b.score ≤ (l.foldl (try_update evaluate) b).score := by
  induction l generalizing b with
  | nil => exact ⟨hb, le_refl _⟩
  | cons a t ih =>
    rw [List.foldl_cons]
    have hstep : (try_update evaluate b a).score = evaluate (try_update evaluate b a).p
        ∧ b.score ≤ (try_update evaluate b a).score := by
      unfold try_update
      dsimp only
      split
      next hgt => exact ⟨rfl, le_of_lt hgt⟩
      next => exact ⟨hb, le_refl _⟩
    obtain ⟨h1, h2⟩ := ih (try_update evaluate b a) hstep.1
    exact ⟨h1, le_trans hstep.2 h2⟩

/-- Fold invariant of the K+H pair loop: the running best score is the
evaluation of the running suggestion and it never decreases. -/
theorem foldl_try_pair_spec (evaluate : ParamVector → ℚ) (current : ParamVector)
    (l : List ((ParamVector → ParamVector) × (ParamVector → ParamVector)))
    (acc : ℚ × StepSuggestion) (hacc : acc.1 = evaluate acc.2.next) :
    (l.foldl (try_pair evaluate current) acc).1
        = evaluate (l.foldl (try_pair evaluate current) acc).2.next
    ∧ acc.1 ≤ (l.foldl (try_pair evaluate current) acc).1 := by
  induction l generalizing acc with
  | nil => exact ⟨hacc, le_refl _⟩
  | cons a t ih =>
    rw [List.foldl_cons]
    have hstep : (try_pair evaluate current acc a).1
        = evaluate (try_pair evaluate current acc a).2.next
        ∧ acc.1 ≤ (try_pair evaluate current acc a).1 := by
      unfold try_pair
      dsimp only
      split
      next hcondn => exact ⟨rfl, le_of_lt hcondn.2⟩
      next => exact ⟨hacc, le_refl _⟩
    obtain ⟨h1, h2⟩ := ih (try_pair evaluate current acc a) hstep.1
    exact ⟨h1, le_trans hstep.2 h2⟩

/-- C1: controller non-regression — for every in-domain ParamVector and
every deterministic scoring function, the K-mode step's result scores at
least the input, and the K+H-mode step's result scores at least the K-mode
step's result, because the baseline is always among the probed candidates
and acceptance requires strict improvement. -/
theorem controller_non_regression (evaluate : ParamVector → ℚ) (p : ParamVector)
    (d : ProbeDeltas) (hp : clamp_params p = p) :
    evaluate p ≤ evaluate (suggest_step_K p evaluate d).next
    ∧ evaluate (suggest_step_K p evaluate d).next
        ≤ evaluate (suggest_step_KH p evaluate d).next := by
  have hK := foldl_try_update_spec evaluate (k_candidates p d) ⟨p, evaluate p⟩ rfl
  have hKnext : (suggest_step_K p evaluate d).next
      = ((k_candidates p d).foldl (try_update evaluate) ⟨p, evaluate p⟩).p := rfl
  constructor
  · rw [hKnext, ← hK.1]
    exact hK.2
  · have hKH := foldl_try_pair_spec evaluate p (kh_pairs d)
      (evaluate (suggest_step_K p evaluate d).next, suggest_step_K p evaluate d) rfl
    have hKHnext : suggest_step_KH p evaluate d
        = ((kh_pairs d).foldl (try_pair evaluate p)
            (evaluate (suggest_step_K p evaluate d).next, suggest_step_K p evaluate d)).2 := rfl
    rw [hKHnext, ← hKH.1]
    exact hKH.2

/-- Witness for `controller_non_regression` with a constant scorer at an
in-domain vector. -/
theorem controller_non_regression_witness :
    (fun _ : ParamVector => (0 : ℚ)) ⟨1, 2, 1, 0, 12⟩
      ≤ (fun _ : ParamVector => (0 : ℚ))
        (suggest_step_K ⟨1, 2, 1, 0, 12⟩ (fun _ => (0 : ℚ)) {}).next :=
  (controller_non_regression (fun _ => (0 : ℚ)) ⟨1, 2, 1, 0, 12⟩ {}
    (by norm_num [clamp_params, min_def, max_def])).1

/-! ## Claim theorems: rasterizer write path -/

/-- Stored depth at any cell never decreases across one write step. -/
theorem plot_depth_mono (w h : ℕ) (ramp : List Char) (st : List Char × List ℚ)
    (c : PlotCand) (off : ℕ) :
    st.2.getD off 0 ≤ (plot w h ramp st c).2.getD off 0 := by
  unfold plot
  dsimp only
  split
  · split
    next hgt =>
      dsimp only
      by_cases hoff : target_off w c = off
      · subst hoff
        by_cases hlen : target_off w c < st.2.length
        · rw [List.getD_eq_getElem?_getD (st.2.set _ _), List.getElem?_set_self hlen]
          exact le_of_lt hgt
        · rw [List.set_eq_of_length_le (le_of_not_lt hlen)]
      · rw [List.getD_eq_getElem?_getD (st.2.set _ _), List.getElem?_set_ne hoff,
          ← List.getD_eq_getElem?_getD]
    next => exact le_refl _
  · exact le_refl _

/-- Stored depth at any cell never decreases across a whole candidate fold. -/
theorem foldl_plot_depth_mono (w h : ℕ) (ramp : List Char) (cands : List PlotCand)
    (st : List Char × List ℚ) (off : ℕ) :
    st.2.getD off 0 ≤ ((cands.foldl (plot w h ramp) st).2.getD off 0) := by
  induction cands generalizing st with
  | nil => exact le_refl _
  | cons a t ih =>
    rw [List.foldl_cons]
    exact le_trans (plot_depth_mono w h ramp st a off) (ih (plot w h ramp st a))

/-- C2: depth-test strictness — a candidate whose depth proxy does not
strictly exceed the stored depth at its target cell (in particular an
equal-depth candidate) leaves both buffers unchanged, a candidate never
touches any cell other than its target, and the stored depth at every cell
is nondecreasing over the pass. -/
theorem depth_test_strict (w h : ℕ) (ramp : List Char) (st : List Char × List ℚ)
    (c : PlotCand) (cands : List PlotCand) (off : ℕ) :
    (c.ooz ≤ st.2.getD (target_off w c) 0 → plot w h ramp st c = st)
    ∧ (off ≠ target_off w c →
        (plot w h ramp st c).1.getD off ' ' = st.1.getD off ' '
        ∧ (plot w h ramp st c).2.getD off 0 = st.2.getD off 0)
    ∧ st.2.getD off 0 ≤ ((cands.foldl (plot w h ramp) st).2.getD off 0) := by
  refine ⟨?_, ?_, foldl_plot_depth_mono w h ramp cands st off⟩
  · intro hle
    unfold plot
    dsimp only
    split
    · rw [if_neg (not_lt.2 hle)]
    · rfl
  · intro hne
    unfold plot
    dsimp only
    split
    · split
      · dsimp only
        constructor
        · rw [List.getD_eq_getElem?_getD (st.1.set _ _),
            List.getElem?_set_ne (Ne.symm hne), ← List.getD_eq_getElem?_getD]
        · rw [List.getD_eq_getElem?_getD (st.2.set _ _),
            List.getElem?_set_ne (Ne.symm hne), ← List.getD_eq_getElem?_getD]
      · exact ⟨rfl, rfl⟩
    · exact ⟨rfl, rfl⟩

/-- Witness for `depth_test_strict`: an equal-depth candidate (ooz 0 against
stored depth 0) is discarded and the buffers are unchanged. -/
theorem depth_test_strict_witness :
    plot 3 3 [' '] (List.replicate 9 ' ', List.replicate 9 (0 : ℚ)) ⟨1, 1, 0, 0⟩
      = (List.replicate 9 ' ', List.replicate 9 (0 : ℚ)) :=
  (depth_test_strict 3 3 [' '] (List.replicate 9 ' ', List.replicate 9 (0 : ℚ))
    ⟨1, 1, 0, 0⟩ [] 0).1 (by norm_num [target_off, List.getD_eq_getElem?_getD])

/-- Clamped shade index is a valid ramp index for a nonempty ramp. -/
theorem shade_index_lt (len : ℕ) (hlen : len ≠ 0) (shade : ℚ) :
    shade_index len shade < len := by
  unfold shade_index
  generalize ⌊shade * ((len : ℚ) - 1)⌋ = j
  omega

/-- Glyphs written by the rasterizer belong to the ramp. -/
theorem glyph_mem (ramp : List Char) (hr : ramp ≠ []) (shade : ℚ) :
    ramp.getD (shade_index ramp.length shade) ' ' ∈ ramp := by
  have hlt := shade_index_lt ramp.length (fun h0 => hr (List.length_eq_zero.mp h0)) shade
  rw [List.getD_eq_getElem ramp ' ' hlt]
  exact List.getElem_mem hlt

/-- One write step only adds glyphs that belong to the ramp. -/
theorem plot_buf_mem (w h : ℕ) (ramp : List Char) (hr : ramp ≠ [])
    (st : List Char × List ℚ) (c : PlotCand) (ch : Char)
    (hch : ch ∈ (plot w h ramp st c).1) : ch ∈ st.1 ∨ ch ∈ ramp := by
  unfold plot at hch
  dsimp only at hch
  split at hch
  · split at hch
    next =>
      dsimp only at hch
      rcases List.mem_or_eq_of_mem_set hch with hmem | rfl
      · exact Or.inl hmem
      · exact Or.inr (glyph_mem ramp hr c.shade)
    next => exact Or.inl hch
  · exact Or.inl hch

/-- Fold invariant: every glyph of the character buffer is blank or a ramp
glyph, preserved by the candidate fold. -/
theorem foldl_plot_buf_mem (w h : ℕ) (ramp : List Char) (hr : ramp ≠ [])
    (cands : List PlotCand) (st : List Char × List ℚ)
    (hst : ∀ ch ∈ st.1, ch = ' ' ∨ ch ∈ ramp) :
    ∀ ch ∈ (cands.foldl (plot w h ramp) st).1, ch = ' ' ∨ ch ∈ ramp := by
  induction cands generalizing st with
  | nil => exact hst
  | cons a t ih =>
    rw [List.foldl_cons]
    refine ih (plot w h ramp st a) ?_
    intro ch hch
    rcases plot_buf_mem w h ramp hr st a ch hch with hmem | hmem
    · exact hst ch hmem
    · exact Or.inr hmem

/-- C10: `render_torus_frame` clears both buffers on entry, so the resulting
frame depends on the previous buffer contents only through their lengths,
and every cell of the result is the blank `' '` or a glyph of the supplied
ramp. -/
theorem render_frame_fresh (buf1 buf2 : List Char) (zb1 zb2 : List ℚ) (w h : ℕ)
    (ramp : List Char) (cands : List PlotCand)
    (hb : buf1.length = buf2.length) (hz : zb1.length = zb2.length) (hr : ramp ≠ []) :
    render_torus_frame buf1 zb1 w h ramp cands = render_torus_frame buf2 zb2 w h ramp cands
    ∧ ∀ ch ∈ (render_torus_frame buf1 zb1 w h ramp cands).1, ch = ' ' ∨ ch ∈ ramp := by
  constructor
  · unfold render_torus_frame
    rw [hb, hz]
  · unfold render_torus_frame
    refine foldl_plot_buf_mem w h ramp hr cands _ ?_
    intro ch hch
    exact Or.inl (List.eq_of_mem_replicate hch)

/-- Witness for `render_frame_fresh`: two buffers with equal lengths but
different prior contents render to the same frame. -/
theorem render_frame_fresh_witness :
    render_torus_frame [' '] [(0 : ℚ)] 1 1 ['@'] [⟨0, 0, 1, 1⟩]
      = render_torus_frame ['x'] [(5 : ℚ)] 1 1 ['@'] [⟨0, 0, 1, 1⟩] :=
  (render_frame_fresh [' '] ['x'] [(0 : ℚ)] [(5 : ℚ)] 1 1 ['@'] [⟨0, 0, 1, 1⟩]
    rfl rfl (by simp)).1

/-! ## Claim theorems: quality estimator access safety -/

/-- C9: for `w ≥ 3`, `h ≥ 3` and a buffer of length exactly `w * h`, every
read performed by the quality estimator at an interior offset (`off-1`,
`off+1`, `off-w`, `off+w`) is in bounds: the `Option`-valued gradient agrees
with the total one, so the out-of-bounds branch is unreachable.  The length
precondition is not checked by the function itself. -/
theorem quality_reads_in_bounds (sqrt : ℚ → ℚ) (buf : List Char) (w h : ℕ)
    (hw : 3 ≤ w) (hh : 3 ≤ h) (hlen : buf.length = w * h) :
    ∀ off ∈ interior_offsets w h, grad_at? sqrt buf w off = some (grad_at sqrt buf w off) := by
  intro off hoff
  unfold interior_offsets at hoff
  simp only [List.mem_flatMap, List.mem_map, List.mem_range'_1] at hoff
  obtain ⟨y, ⟨hy1, hy2⟩, x, ⟨hx1, hx2⟩, rfl⟩ := hoff
  have e1 : y * w + w = (y + 1) * w := by ring
  have e2 : (y + 1) * w ≤ (h - 1) * w := Nat.mul_le_mul_right w (by omega)
  have e3 : (h - 1) * w + w = h * w := by
    have h1' : 1 ≤ h := by omega
    calc (h - 1) * w + w = ((h - 1) + 1) * w := by ring
      _ = h * w := by rw [Nat.sub_add_cancel h1']
  have e4 : h * w = w * h := Nat.mul_comm h w
  have hxw : x + 1 < w := by omega
  have hw0 : 0 < w := by omega
  have hb2 : y * w + x + 1 < w * h := by linarith
  have hb4 : y * w + x + w < w * h := by linarith
  have hb1 : y * w + x - 1 < w * h := by
    have hle : y * w + x - 1 ≤ y * w + x := Nat.sub_le _ _
    exact lt_of_le_of_lt hle (by linarith)
  have hb3 : y * w + x - w < w * h := by
    have hle : y * w + x - w ≤ y * w + x := Nat.sub_le _ _
    exact lt_of_le_of_lt hle (by linarith)
  have hread : ∀ k, k < w * h → density_at? buf k = some (density_at buf k) := by
    intro k hk
    have hk' : k < buf.length := by
      rw [hlen]
      exact hk
    unfold density_at? density_at
    rw [List.get?_eq_get hk']
    rfl
  unfold grad_at? grad_at
  rw [hread _ hb1, hread _ hb2, hread _ hb3, hread _ hb4]

/-- Witness for `quality_reads_in_bounds` on the concrete 3×3 blank buffer
at its single interior offset. -/
theorem quality_reads_in_bounds_witness :
    grad_at? id (List.replicate 9 ' ') 3 4 = some (grad_at id (List.replicate 9 ' ') 3 4) :=
  quality_reads_in_bounds id (List.replicate 9 ' ') 3 3 (by decide) (by decide) (by decide)
    4 (by decide)
